import Mathlib

/-!
Verification of the article service's query/filter builder and its
read/write data-access contract.

The development is a shallow embedding of the two Go variants found in the
repository: the combined repository (`main.go`: `SQLArticleRepository`,
`ArticleService`, `ErrorHandler`) and the CQRS split
(`ArticleWriteService`/`ArticleReadService` with
`ArticleWriteRepositoryImpl`/`ArticleReadRepositoryImpl`).  The database
is modelled as the list of rows of the `articles` table; SQL `LIKE`,
`LOWER`, placeholder binding and `ORDER BY created DESC` are given
executable semantics.
-/

namespace CQRS

/-- Per-character lowercasing; models Go's `strings.ToLower` and SQL
`LOWER` (on the ASCII range, which is all the semantics the filter
relies on). -/
def lowerStr (s : String) : String := ⟨s.data.map Char.toLower⟩

/-- SQL `LIKE` pattern matching: `%` matches any sequence of characters
(realised as: some suffix of the text matches the rest of the pattern),
`_` matches exactly one character, a backslash escapes the character
after it, every other character is literal.  First argument is the
pattern, second the scanned text; the whole text must be consumed. -/
def likeMatch : List Char → List Char → Bool
  | [], s => s.isEmpty
  | '%' :: ps, s => s.tails.any fun t => likeMatch ps t
  | '\\' :: q :: ps, s =>
    match s with
    | c :: cs => (q == c) && likeMatch ps cs
    | [] => false
  | '_' :: ps, s =>
    match s with
    | _ :: cs => likeMatch ps cs
    | [] => false
  | p :: ps, s =>
    match s with
    | c :: cs => (p == c) && likeMatch ps cs
    | [] => false

/-- `s LIKE pattern` on lowercased SQL text values. -/
def sqlLike (s pattern : String) : Bool := likeMatch pattern.data s.data

/-- Characters with no special meaning in a `LIKE` pattern. -/
def plainChar (c : Char) : Bool := c != '%' && c != '\\' && c != '_'

/-- No `LIKE` metacharacter or escape anywhere in the character list. -/
def noWild (cs : List Char) : Bool := cs.all plainChar

/-- Literal substring containment — the spec's notion of "contains ... as
a substring", with no pattern characters. -/
def containsSubstr (s sub : String) : Bool := decide (sub.data <:+: s.data)

/-- A row of the `articles` table / the `Article` (and
`ArticleWriteModel`) struct.  `Created` is the timestamp as an integer
instant. -/
structure Article where
  ID : Int
  Author : String
  Title : String
  Body : String
  Created : Int
deriving DecidableEq

/-- `ArticleQuery`: optional free-text filter and optional author filter;
the empty string means "filter absent". -/
structure ArticleQuery where
  Query : String
  Author : String
deriving DecidableEq

/-- `CreateArticleCommand`: the transient input of a write. -/
structure CreateArticleCommand where
  Author : String
  Title : String
  Body : String
deriving DecidableEq

/-- `GetArticlesQuery` of the split variant. -/
structure GetArticlesQuery where
  Query : String
  Author : String
deriving DecidableEq

/-- A Go slice value.  `isNil` distinguishes the nil slice (which
`encoding/json` marshals to `null`) from a non-nil — possibly empty —
slice (which marshals to a JSON array). -/
structure GoSlice (α : Type) where
  isNil : Bool
  elems : List α
deriving DecidableEq

/-- The comparison realising `ORDER BY created DESC`. -/
def createdGe (a b : Article) : Prop := b.Created ≤ a.Created

instance : DecidableRel createdGe := fun a b => Int.decLe b.Created a.Created

instance : IsTotal Article createdGe := ⟨fun a b => le_total b.Created a.Created⟩

instance : IsTrans Article createdGe := ⟨fun _ _ _ h1 h2 => le_trans h2 h1⟩

/-- Rows sorted most recently created first (`ORDER BY created DESC`;
relative order of ties is store-dependent, any stable order is a faithful
model). -/
def orderByCreatedDesc (l : List Article) : List Article :=
  List.insertionSort createdGe l

/-- The two `WHERE` fragments `List` can emit, each carrying the 1-based
index of the placeholder it references — the source hardcodes `$1` in the
text clause and `$2` in the author clause. -/
inductive WhereClause where
  | titleBodyLike (idx : Nat)
  | authorEq (idx : Nat)
deriving DecidableEq

/-- The `whereClauses` and `params` slices built by
`SQLArticleRepository.List`. -/
def buildWhere (q : ArticleQuery) : List WhereClause × List String :=
  let acc : List WhereClause × List String := ([], [])
  let acc :=
    if q.Query ≠ "" then
      (acc.1 ++ [WhereClause.titleBodyLike 1],
       acc.2 ++ ["%" ++ lowerStr q.Query ++ "%"])
    else acc
  let acc :=
    if q.Author ≠ "" then
      (acc.1 ++ [WhereClause.authorEq 2], acc.2 ++ [lowerStr q.Author])
    else acc
  acc

/-- Placeholder index referenced by a clause. -/
def clauseParamIdx : WhereClause → Nat
  | WhereClause.titleBodyLike i => i
  | WhereClause.authorEq i => i

/-- Number of parameters the prepared statement requires: the highest
placeholder index referenced in the statement.  The bind fails unless
exactly this many parameters are supplied. -/
def requiredParams (cs : List WhereClause) : Nat :=
  cs.foldr (fun c n => max (clauseParamIdx c) n) 0

/-- Row-level meaning of one `WHERE` fragment, given the bound
parameters. -/
def evalClause (params : List String) (a : Article) : WhereClause → Bool
  | WhereClause.titleBodyLike i =>
    match params.get? (i - 1) with
    | some p => sqlLike (lowerStr a.Title) p || sqlLike (lowerStr a.Body) p
    | none => false
  | WhereClause.authorEq i =>
    match params.get? (i - 1) with
    | some p => lowerStr a.Author == p
    | none => false

/-- The store's autoincrement id sequence, sampled at insert time
(`RETURNING id`). -/
def nextId (store : List Article) : Int := store.length + 1

/-- `SQLArticleRepository.Create`: `INSERT ... RETURNING id` followed by
`Scan(&article.ID)`; returns the new store and the (mutated) article. -/
def SQLArticleRepository.Create (store : List Article) (article : Article) :
    List Article × Article :=
  let assigned := { article with ID := nextId store }
  (store ++ [assigned], assigned)

/-- `SQLArticleRepository.List`. `none` models the database rejecting the
query — in particular when the bind supplies a number of parameters
different from what the statement requires — which Go surfaces as
`(nil, err)`. -/
def SQLArticleRepository.List (store : List Article) (q : ArticleQuery) :
    Option (GoSlice Article) :=
  let (clauses, params) := buildWhere q
  if requiredParams clauses = params.length then
    some ⟨false,
      orderByCreatedDesc (store.filter fun a => clauses.all (evalClause params a))⟩
  else
    none

/-- Split-variant write repository: plain `INSERT` via `Exec`, no
`RETURNING`/`Scan`, so the article passed in is left unchanged while the
stored row still receives the generated id. -/
def ArticleWriteRepositoryImpl.Create (store : List Article) (article : Article) :
    List Article × Article :=
  (store ++ [{ article with ID := nextId store }], article)

/-- Split-variant read repository: `SELECT ... ORDER BY created DESC`
with no filters; the result slice is allocated non-nil. -/
def ArticleReadRepositoryImpl.GetAll (store : List Article) :
    Option (GoSlice Article) :=
  some ⟨false, orderByCreatedDesc store⟩

/-- `CreateArticleCommand.Validate`; `some msg` models the returned
error, `none` success. -/
def CreateArticleCommand.Validate (c : CreateArticleCommand) : Option String :=
  if c.Author = "" then some "author is required"
  else if c.Title = "" then some "title is required"
  else if c.Body = "" then some "body is required"
  else none

/-- `GetArticlesQuery.Validate` always succeeds. -/
def GetArticlesQuery.Validate (_q : GetArticlesQuery) : Option String := none

/-- Combined-variant `ArticleService.CreateArticle`: builds the article
with `Created = now` and calls the repository — with no validation step.
Returns the new store and the error. -/
def ArticleService.CreateArticle (store : List Article) (now : Int)
    (command : CreateArticleCommand) : List Article × Option String :=
  let article : Article :=
    { ID := 0, Author := command.Author, Title := command.Title,
      Body := command.Body, Created := now }
  let res := SQLArticleRepository.Create store article
  (res.1, none)

/-- Split-variant `ArticleWriteService.CreateArticle`: validates first,
propagating the validation error unchanged, then creates. -/
def ArticleWriteService.CreateArticle (store : List Article) (now : Int)
    (command : CreateArticleCommand) : List Article × Option String :=
  match command.Validate with
  | some e => (store, some e)
  | none =>
    let article : Article :=
      { ID := 0, Author := command.Author, Title := command.Title,
        Body := command.Body, Created := now }
    let res := ArticleWriteRepositoryImpl.Create store article
    (res.1, none)

/-- Split-variant `ArticleReadService.GetArticles`: validates the query
(always succeeds) and delegates to `GetAll`, which takes no filter
arguments. -/
def ArticleReadService.GetArticles (store : List Article)
    (q : GetArticlesQuery) : Option (GoSlice Article) :=
  match q.Validate with
  | some _ => none
  | none => ArticleReadRepositoryImpl.GetAll store

/-- Shape of `encoding/json` marshalling of the result slice: the nil
slice marshals to `null`, a non-nil empty slice to `[]`, anything else to
a non-empty array. -/
def marshalShape (s : GoSlice Article) : String :=
  if s.isNil then "null" else if s.elems.isEmpty then "[]" else "[...]"

/-- A dynamically-typed Go value (`he.Message` has interface type). -/
inductive GoValue where
  | str (s : String)
  | int (n : Int)
deriving DecidableEq

/-- `echo.HTTPError`: a status code plus a dynamically-typed message. -/
structure HTTPError where
  Code : Nat
  Message : GoValue
deriving DecidableEq

/-- An error value reaching the global handler: either an
`echo.HTTPError` or any other error. -/
inductive GoError where
  | httpError (he : HTTPError)
  | other (msg : String)
deriving DecidableEq

/-- Go type assertion `v.(string)` in its unchecked form: `none` models
the panic raised when the dynamic type is not `string`. -/
def typeAssertString : GoValue → Option String
  | GoValue.str s => some s
  | _ => none

/-- The global `ErrorHandler`: starts from 500 / `Internal Server Error`,
and for an `echo.HTTPError` takes its code and asserts its message to
`string` without the `ok` form.  `some (code, msg)` is the JSON error
response written; `none` models the panic of a failed assertion. -/
def ErrorHandler (err : GoError) : Option (Nat × String) :=
  match err with
  | GoError.httpError he =>
    match typeAssertString he.Message with
    | some m => some (he.Code, m)
    | none => none
  | GoError.other _ => some (500, "Internal Server Error")

/-! ### Properties of the `LIKE` semantics -/

theorem likeMatch_percent_cons (ps : List Char) (s : List Char) :
    likeMatch ('%' :: ps) s = true ↔ ∃ t, t <:+ s ∧ likeMatch ps t = true := by
  simp only [likeMatch, List.any_eq_true]
  constructor
  · rintro ⟨t, ht, hm⟩
    exact ⟨t, (List.mem_tails t s).1 ht, hm⟩
  · rintro ⟨t, ht, hm⟩
    exact ⟨t, (List.mem_tails t s).2 ht, hm⟩

theorem likeMatch_percent_only (s : List Char) : likeMatch ['%'] s = true := by
  rw [likeMatch_percent_cons]
  exact ⟨[], List.nil_suffix, rfl⟩

theorem likeMatch_plain_nil (c : Char) (ps : List Char)
    (hc1 : c ≠ '%') (hc2 : c ≠ '\\') (hc3 : c ≠ '_') :
    likeMatch (c :: ps) [] = false := by
  rw [likeMatch]
  · intro h
    exact absurd h hc1
  · intro q ps' h _
    exact absurd h hc2
  · intro h
    exact absurd h hc3

theorem likeMatch_plain_cons (c : Char) (ps : List Char) (d : Char) (s' : List Char)
    (hc1 : c ≠ '%') (hc2 : c ≠ '\\') (hc3 : c ≠ '_') :
    likeMatch (c :: ps) (d :: s') = ((c == d) && likeMatch ps s') := by
  rw [likeMatch]
  · intro h
    exact absurd h hc1
  · intro q ps' h _
    exact absurd h hc2
  · intro h
    exact absurd h hc3

/-- A pattern made of plain characters followed by a final `%` accepts
exactly the texts having the plain part as a prefix. -/
theorem likeMatch_plain_append (w : List Char) (hw : noWild w = true) :
    ∀ s : List Char, likeMatch (w ++ ['%']) s = w.isPrefixOf s := by
  induction w with
  | nil => intro s; simp [likeMatch_percent_only]
  | cons c w ih =>
    intro s
    rw [noWild, List.all_cons, Bool.and_eq_true] at hw
    obtain ⟨hc, hw'⟩ := hw
    rw [plainChar, Bool.and_eq_true, Bool.and_eq_true] at hc
    obtain ⟨⟨hc1, hc2⟩, hc3⟩ := hc
    rw [bne_iff_ne] at hc1 hc2 hc3
    cases s with
    | nil =>
      rw [List.cons_append, likeMatch_plain_nil c _ hc1 hc2 hc3]
      rfl
    | cons d s' =>
      rw [List.cons_append, likeMatch_plain_cons c _ d s' hc1 hc2 hc3]
      rw [ih (by rw [noWild]; exact hw') s', List.isPrefixOf_cons₂]

/-- A `%w%` pattern with `w` plain accepts exactly the texts containing
`w` as a contiguous substring. -/
theorem likeMatch_percent_wrap (w s : List Char) (hw : noWild w = true) :
    (likeMatch ('%' :: (w ++ ['%'])) s = true) ↔ w <:+: s := by
  rw [likeMatch_percent_cons]
  constructor
  · rintro ⟨t, hts, hm⟩
    rw [likeMatch_plain_append w hw t] at hm
    exact List.infix_iff_prefix_suffix.2 ⟨t, List.isPrefixOf_iff_prefix.1 hm, hts⟩
  · intro h
    obtain ⟨t, hpt, hts⟩ := List.infix_iff_prefix_suffix.1 h
    refine ⟨t, hts, ?_⟩
    rw [likeMatch_plain_append w hw t]
    exact List.isPrefixOf_iff_prefix.2 hpt

/-- On wildcard-free needles, the repository's `LIKE '%needle%'` scan and
literal substring containment agree. -/
theorem sqlLike_substr (t sub : String) (hw : noWild sub.data = true) :
    sqlLike t ("%" ++ sub ++ "%") = containsSubstr t sub := by
  have hdata : ("%" ++ sub ++ "%").data = '%' :: (sub.data ++ ['%']) := by
    rw [String.data_append, String.data_append]
    rfl
  rw [sqlLike, containsSubstr, hdata]
  by_cases h : sub.data <:+: t.data
  · rw [(likeMatch_percent_wrap sub.data t.data hw).2 h]
    simp [h]
  · rw [decide_eq_false h]
    by_contra hne
    rw [Bool.not_eq_false] at hne
    exact h ((likeMatch_percent_wrap sub.data t.data hw).1 hne)

/-! ### Shape of `SQLArticleRepository.List` for each filter combination -/

theorem buildWhere_query_only (q : ArticleQuery) (hq : q.Query ≠ "") (ha : q.Author = "") :
    buildWhere q = ([WhereClause.titleBodyLike 1], ["%" ++ lowerStr q.Query ++ "%"]) := by
  simp [buildWhere, hq, ha]

theorem List_query_only (store : List Article) (q : ArticleQuery)
    (hq : q.Query ≠ "") (ha : q.Author = "") :
    SQLArticleRepository.List store q =
      some ⟨false, orderByCreatedDesc (store.filter fun a =>
        sqlLike (lowerStr a.Title) ("%" ++ lowerStr q.Query ++ "%") ||
        sqlLike (lowerStr a.Body) ("%" ++ lowerStr q.Query ++ "%"))⟩ := by
  rw [SQLArticleRepository.List, buildWhere_query_only q hq ha]
  simp [requiredParams, clauseParamIdx, evalClause]

/-- With only the author filter set, the statement references `$2` but a
single parameter is bound, so the database rejects the query. -/
theorem List_author_only_none (store : List Article) (q : ArticleQuery)
    (hq : q.Query = "") (ha : q.Author ≠ "") :
    SQLArticleRepository.List store q = none := by
  rw [SQLArticleRepository.List]
  simp [buildWhere, hq, ha, requiredParams, clauseParamIdx]

theorem List_no_filter (store : List Article) (q : ArticleQuery)
    (hq : q.Query = "") (ha : q.Author = "") :
    SQLArticleRepository.List store q = some ⟨false, orderByCreatedDesc store⟩ := by
  rw [SQLArticleRepository.List]
  simp [buildWhere, hq, ha, requiredParams]

theorem List_both (store : List Article) (q : ArticleQuery)
    (hq : q.Query ≠ "") (ha : q.Author ≠ "") :
    SQLArticleRepository.List store q =
      some ⟨false, orderByCreatedDesc (store.filter fun a =>
        (sqlLike (lowerStr a.Title) ("%" ++ lowerStr q.Query ++ "%") ||
         sqlLike (lowerStr a.Body) ("%" ++ lowerStr q.Query ++ "%")) &&
        (lowerStr a.Author == lowerStr q.Author))⟩ := by
  rw [SQLArticleRepository.List]
  simp [buildWhere, hq, ha, requiredParams, clauseParamIdx, evalClause]

/-! ### Claims -/

/-- C1: the claim says the author filter works independently when `Query`
is empty, returning exactly the case-insensitive author matches.  The
code instead hardcodes placeholder `$2` in the author clause while
binding a single parameter, so an author-only query is rejected by the
database and `List` errors: here the store holds an article whose
lowercased author equals the lowercased query author, yet `List` returns
an error (`none`) rather than that article. -/
theorem C1_author_only_filter_errors :
    SQLArticleRepository.List [⟨1, "John", "Title", "Body", 0⟩] ⟨"", "john"⟩ = none
    ∧ lowerStr "John" = lowerStr "john" := by decide

/-- C2 counterexample: the combined variant's
`ArticleService.CreateArticle` performs no validation: on a command with
an empty author it returns no error and the repository `Create` runs,
appending a row — the claim as stated (validation error, `Create` never
invoked) is false for it. -/
theorem C2_counterexample :
    ArticleService.CreateArticle [] 7 ⟨"", "t", "b"⟩ = ([⟨1, "", "t", "b", 7⟩], none) := by
  decide

/-- C2 (amended): the split variant's `ArticleWriteService.CreateArticle`
returns the validation error unchanged and leaves the store untouched
(`Create` never invoked) whenever any of author/title/body is empty, and
appends exactly one article for valid commands; the combined variant's
`ArticleService.CreateArticle` performs no validation and calls `Create`
exactly once on every command. -/
theorem C2_amended (store : List Article) (now : Int) (cmd : CreateArticleCommand) :
    ((cmd.Author = "" ∨ cmd.Title = "" ∨ cmd.Body = "") →
      ArticleWriteService.CreateArticle store now cmd = (store, cmd.Validate)
      ∧ cmd.Validate.isSome = true)
    ∧ ((cmd.Author ≠ "" ∧ cmd.Title ≠ "" ∧ cmd.Body ≠ "") →
      ArticleWriteService.CreateArticle store now cmd =
        (store ++ [⟨nextId store, cmd.Author, cmd.Title, cmd.Body, now⟩], none))
    ∧ ArticleService.CreateArticle store now cmd =
        (store ++ [⟨nextId store, cmd.Author, cmd.Title, cmd.Body, now⟩], none) := by
  refine ⟨?_, ?_, rfl⟩
  · intro h
    have hv : ∃ e, cmd.Validate = some e := by
      rw [CreateArticleCommand.Validate]
      rcases h with h | h | h <;> simp [h] <;> split_ifs <;> simp
    obtain ⟨e, he⟩ := hv
    rw [ArticleWriteService.CreateArticle, he]
    simp [he]
  · rintro ⟨h1, h2, h3⟩
    have hv : cmd.Validate = none := by
      rw [CreateArticleCommand.Validate, if_neg h1, if_neg h2, if_neg h3]
    rw [ArticleWriteService.CreateArticle, hv]
    rfl

/-- C2 witness: the amended claim at a concrete empty-author command. -/
theorem C2_amended_witness :
    ArticleWriteService.CreateArticle [] 0 ⟨"", "t", "b"⟩
      = ([], CreateArticleCommand.Validate ⟨"", "t", "b"⟩)
    ∧ (CreateArticleCommand.Validate ⟨"", "t", "b"⟩).isSome = true :=
  (C2_amended [] 0 ⟨"", "t", "b"⟩).1 (Or.inl rfl)

/-- C3 counterexample: the split variant's
`ArticleWriteRepositoryImpl.Create` inserts the row (which receives the
generated id 1) but never assigns the identifier back: the article's `ID`
field still holds the passed-in 0. -/
theorem C3_counterexample :
    (ArticleWriteRepositoryImpl.Create [] ⟨0, "a", "t", "b", 5⟩).1 = [⟨1, "a", "t", "b", 5⟩]
    ∧ (ArticleWriteRepositoryImpl.Create [] ⟨0, "a", "t", "b", 5⟩).2.ID = 0
    ∧ ((0 : Int) ≠ 1) := by decide

/-- C3 (amended): in the combined variant, `Create` assigns the
store-generated identifier back onto the article's `ID` field; in the
split variant the identifier is not assigned back — the article is
returned exactly as passed while the stored row still receives the
generated id.  In both variants the stored row's `created` column holds
exactly the timestamp the service set on the article. -/
theorem C3_amended (store : List Article) (a : Article) :
    (SQLArticleRepository.Create store a).2.ID = nextId store
    ∧ (SQLArticleRepository.Create store a).1
        = store ++ [(SQLArticleRepository.Create store a).2]
    ∧ (SQLArticleRepository.Create store a).2.Created = a.Created
    ∧ (SQLArticleRepository.Create store a).1 = store ++ [{ a with ID := nextId store }]
    ∧ (ArticleWriteRepositoryImpl.Create store a).2 = a
    ∧ (ArticleWriteRepositoryImpl.Create store a).1
        = store ++ [{ a with ID := nextId store }] :=
  ⟨rfl, rfl, rfl, rfl, rfl, rfl⟩

/-- C4 counterexample: with the query string `a%b` — which is not a
substring of any stored field — `List` still returns the article whose
body is `axb`, because the embedded `%` acts as a wildcard in the `LIKE`
pattern; so "returns exactly the articles containing the query as a
substring" fails for queries holding `LIKE` metacharacters. -/
theorem C4_counterexample :
    SQLArticleRepository.List [⟨1, "au", "t", "axb", 0⟩] ⟨"a%b", ""⟩
      = some ⟨false, [⟨1, "au", "t", "axb", 0⟩]⟩
    ∧ containsSubstr (lowerStr "axb") (lowerStr "a%b") = false
    ∧ containsSubstr (lowerStr "t") (lowerStr "a%b") = false := by decide

/-- C4 (amended): for every query with non-empty `Query`, empty `Author`,
and whose lowercased query text contains no `LIKE` metacharacter or
escape (`%`, `_`, `\`), `List` returns exactly the articles whose
lowercased title or lowercased body contains the lowercased query string
as a substring, ordered by creation time descending; matching is on
lowercased values on both sides, so case affects nothing. -/
theorem C4_amended (store : List Article) (q : ArticleQuery)
    (hq : q.Query ≠ "") (ha : q.Author = "")
    (hw : noWild (lowerStr q.Query).data = true) :
    SQLArticleRepository.List store q =
      some ⟨false, orderByCreatedDesc (store.filter fun a =>
        containsSubstr (lowerStr a.Title) (lowerStr q.Query) ||
        containsSubstr (lowerStr a.Body) (lowerStr q.Query))⟩ := by
  rw [List_query_only store q hq ha]
  have hcong : ∀ a ∈ store,
      (sqlLike (lowerStr a.Title) ("%" ++ lowerStr q.Query ++ "%") ||
       sqlLike (lowerStr a.Body) ("%" ++ lowerStr q.Query ++ "%")) =
      (containsSubstr (lowerStr a.Title) (lowerStr q.Query) ||
       containsSubstr (lowerStr a.Body) (lowerStr q.Query)) := fun a _ => by
    rw [sqlLike_substr _ _ hw, sqlLike_substr _ _ hw]
  rw [List.filter_congr hcong]

/-- C4 witness: the amended claim at a concrete store and query; the
upper-case query `WORLD` matches the article whose title contains
`World`. -/
theorem C4_amended_witness :
    SQLArticleRepository.List [⟨1, "John", "Hello World", "b", 3⟩] ⟨"WORLD", ""⟩ =
      some ⟨false, [⟨1, "John", "Hello World", "b", 3⟩]⟩ := by
  rw [C4_amended [⟨1, "John", "Hello World", "b", 3⟩] ⟨"WORLD", ""⟩ (by decide) rfl
    (by decide)]
  decide

/-- C5: with both filters empty, `List` (combined variant) and `GetAll`
(split variant) succeed and return every stored article — the result is
a permutation of the store — ordered by `created` descending. -/
theorem C5_no_filter_returns_all_sorted (store : List Article) :
    SQLArticleRepository.List store ⟨"", ""⟩ = some ⟨false, orderByCreatedDesc store⟩
    ∧ ArticleReadRepositoryImpl.GetAll store = some ⟨false, orderByCreatedDesc store⟩
    ∧ (orderByCreatedDesc store).Perm store
    ∧ List.Sorted createdGe (orderByCreatedDesc store) :=
  ⟨List_no_filter store ⟨"", ""⟩ rfl rfl, rfl,
   List.perm_insertionSort createdGe store,
   List.sorted_insertionSort createdGe store⟩

/-- C6: `CreateArticleCommand.Validate` fails citing the first missing
field in the order author, title, body; it succeeds exactly when all
three fields are non-empty strings — only exact emptiness invalidates,
no trimming, so whitespace-only fields pass. -/
theorem C6_validate_field_order (c : CreateArticleCommand) :
    (c.Author = "" → c.Validate = some "author is required")
    ∧ (c.Author ≠ "" → c.Title = "" → c.Validate = some "title is required")
    ∧ (c.Author ≠ "" → c.Title ≠ "" → c.Body = "" → c.Validate = some "body is required")
    ∧ (c.Validate = none ↔ (c.Author ≠ "" ∧ c.Title ≠ "" ∧ c.Body ≠ ""))
    ∧ CreateArticleCommand.Validate ⟨" ", " ", " "⟩ = none := by
  refine ⟨?_, ?_, ?_, ?_, by decide⟩
  · intro h
    rw [CreateArticleCommand.Validate, if_pos h]
  · intro h1 h2
    rw [CreateArticleCommand.Validate, if_neg h1, if_pos h2]
  · intro h1 h2 h3
    rw [CreateArticleCommand.Validate, if_neg h1, if_neg h2, if_pos h3]
  · rw [CreateArticleCommand.Validate]
    split_ifs with h1 h2 h3 <;> simp_all

/-- C6 witness: a command missing only the author yields the author
error. -/
theorem C6_validate_witness :
    CreateArticleCommand.Validate ⟨"", "x", "y"⟩ = some "author is required" :=
  (C6_validate_field_order ⟨"", "x", "y"⟩).1 rfl

/-- C7: the `LIKE` pattern bound by `List` is exactly
`%` + lowercased query + `%` with no escaping of pattern
metacharacters, and for the input `a%b` the matched set differs from
literal substring containment: the article with body `axyb` is matched
although `a%b` is a substring of neither its title nor its body. -/
theorem C7_like_pattern_not_escaped :
    (∀ q : ArticleQuery, q.Query ≠ "" →
      (buildWhere q).2.head? = some ("%" ++ lowerStr q.Query ++ "%"))
    ∧ SQLArticleRepository.List [⟨1, "au", "ti", "axyb", 0⟩] ⟨"a%b", ""⟩
        = some ⟨false, [⟨1, "au", "ti", "axyb", 0⟩]⟩
    ∧ containsSubstr (lowerStr "ti") (lowerStr "a%b") = false
    ∧ containsSubstr (lowerStr "axyb") (lowerStr "a%b") = false := by
  refine ⟨?_, by decide, by decide, by decide⟩
  intro q hq
  by_cases ha : q.Author = "" <;> simp [buildWhere, hq, ha]

/-- Any successful `List` result is built from `make([]Article, 0)` and
is therefore a non-nil slice. -/
theorem List_isSome_not_nil (store : List Article) (q : ArticleQuery) (s : GoSlice Article)
    (h : SQLArticleRepository.List store q = some s) : s.isNil = false := by
  rw [SQLArticleRepository.List] at h
  rcases hbw : buildWhere q with ⟨cs, ps⟩
  rw [hbw] at h
  dsimp only at h
  split at h
  · injection h with h'
    rw [← h']
  · exact absurd h (by simp)

/-- C8: whenever a read succeeds, the returned slice is non-nil — in both
the combined variant (`List`) and the split variant (`GetAll`) — so with
zero matches it marshals to the empty JSON array `[]`, never to
`null`. -/
theorem C8_success_empty_is_array_not_null (store : List Article) (q : ArticleQuery)
    (s t : GoSlice Article)
    (h1 : SQLArticleRepository.List store q = some s)
    (h2 : ArticleReadRepositoryImpl.GetAll store = some t) :
    s.isNil = false ∧ t.isNil = false
    ∧ (s.elems = [] → marshalShape s = "[]")
    ∧ (t.elems = [] → marshalShape t = "[]") := by
  have hs := List_isSome_not_nil store q s h1
  have ht : t.isNil = false := by
    rw [ArticleReadRepositoryImpl.GetAll] at h2
    injection h2 with h'
    rw [← h']
  refine ⟨hs, ht, ?_, ?_⟩
  · intro he
    rw [marshalShape, hs, he]
    rfl
  · intro he
    rw [marshalShape, ht, he]
    rfl

/-- C8 witness: on the empty store, both reads succeed with the non-nil
empty slice, which marshals to `[]`. -/
theorem C8_success_witness :
    ((⟨false, []⟩ : GoSlice Article).isNil = false)
    ∧ ((⟨false, []⟩ : GoSlice Article).isNil = false)
    ∧ ((⟨false, []⟩ : GoSlice Article).elems = [] → marshalShape ⟨false, []⟩ = "[]")
    ∧ ((⟨false, []⟩ : GoSlice Article).elems = [] → marshalShape ⟨false, []⟩ = "[]") :=
  C8_success_empty_is_array_not_null [] ⟨"", ""⟩ ⟨false, []⟩ ⟨false, []⟩ (by decide) rfl

/-- C9: in the split variant, `GetArticles` gives the same result for any
two queries over the same store: validation always succeeds and `GetAll`
takes no filter arguments, so the filter fields cannot influence the
output. -/
theorem C9_getArticles_query_independent (store : List Article)
    (q1 q2 : GetArticlesQuery) :
    ArticleReadService.GetArticles store q1 = ArticleReadService.GetArticles store q2 := rfl

/-- C10: the global error handler's unchecked type assertion panics
(`none`) on an `echo.HTTPError` whose `Message` is not a string — here an
integer — while string-message HTTP errors and non-HTTP errors produce
the JSON error response. -/
theorem C10_error_handler_panics_on_nonstring :
    ErrorHandler (GoError.httpError ⟨400, GoValue.int 42⟩) = none
    ∧ (∀ code s, ErrorHandler (GoError.httpError ⟨code, GoValue.str s⟩) = some (code, s))
    ∧ (∀ m, ErrorHandler (GoError.other m) = some (500, "Internal Server Error")) :=
  ⟨rfl, fun _ _ => rfl, fun _ => rfl⟩

end CQRS
